import Mathlib

/-!
Verification development for `download_articles.py` (NM-harvest).

The Python source is shallowly embedded as executable Lean definitions:

* JSON values (`Json`) cover the shapes the program touches: strings,
  arrays and objects.  Dictionary indexing (`d[k]`) is `dictGet`, which
  raises `Exn.keyError` on a missing key and `Exn.typeError` when the
  subject is not an object, mirroring Python semantics.  Taking `[0]` of
  an empty list raises `Exn.indexError` (`listGet0`).
* Exceptions are the `Exn` type threaded through `Except` /
  state-passing results.  `Exn.httpError` stands for the various
  exceptions the HTTP library can raise, `Exn.processError` for a
  non-zero exit of an external command under `check=True`,
  `Exn.pyException` for a plain `raise Exception(msg)`.
* The outside world (network, directory listings, external commands,
  PATH lookup) is an oracle `Env` of pure functions; the mutable
  filesystem and the observable effects of the run are a `World` value
  threaded explicitly: every effectful function has type
  `... → World → World × Except Exn α`, returning the world at the time
  of an exception as well.
* `requests.get` + `json.loads` of the metadata endpoint are modelled by
  `Env.fetch`, which returns the parsed top-level JSON array; network,
  authentication and JSON-parse failures surface as an `Except.error`
  there (none of them is an `IndexError`, which is all the driver's
  behaviour depends on).  The credential pair read from `config` is
  absorbed into this oracle.
* External JSON leaf kinds the program never produces (numbers,
  booleans, null) are omitted from `Json`; the code only ever compares
  leaves against fixed strings (false for non-strings in Python, and
  such records are simply filtered out) and formats them into URLs.
-/

/-- Python exceptions distinguished by the program. -/
inductive Exn where
  | indexError
  | keyError
  | typeError
  | fileNotFound
  | processError
  | httpError
  | pyException (msg : String)
deriving DecidableEq, Repr

/-- JSON values of the shapes `download_articles.py` manipulates. -/
inductive Json where
  | str (s : String)
  | arr (elems : List Json)
  | obj (fields : List (String × Json))
deriving Repr

mutual

/-- Python `repr` of a JSON-shaped value (string escaping not modelled;
the program only ever formats plain strings). -/
def pyRepr : Json → String
  | .str s => "'" ++ s ++ "'"
  | .arr xs => "[" ++ pyReprList xs ++ "]"
  | .obj fs => "\x7b" ++ pyReprFields fs ++ "\x7d"

/-- Comma-separated `repr`s of list elements. -/
def pyReprList : List Json → String
  | [] => ""
  | [x] => pyRepr x
  | x :: y :: rest => pyRepr x ++ ", " ++ pyReprList (y :: rest)

/-- Comma-separated `'key': repr(value)` pairs of a dict. -/
def pyReprFields : List (String × Json) → String
  | [] => ""
  | [kv] => "'" ++ kv.1 ++ "': " ++ pyRepr kv.2
  | kv :: kv2 :: rest =>
    "'" ++ kv.1 ++ "': " ++ pyRepr kv.2 ++ ", " ++ pyReprFields (kv2 :: rest)

end

/-- Python `str` of a JSON-shaped value, as used by `str.format`. -/
def pyStr : Json → String
  | .str s => s
  | j => pyRepr j

/-- Python `x == "lit"` for a JSON value `x`: only a string of equal
content compares equal. -/
def jsonEqStr : Json → String → Bool
  | .str s, t => s == t
  | _, _ => false

/-- Python `d[key]` on a JSON value: `KeyError` when the key is absent,
`TypeError` when `d` is not a dict. -/
def dictGet : Json → String → Except Exn Json
  | .obj fields, key =>
    match fields.lookup key with
    | some v => .ok v
    | none => .error .keyError
  | _, _ => .error .typeError

/-- Python iteration over a JSON value expected to be a list. -/
def asArr : Json → Except Exn (List Json)
  | .arr xs => .ok xs
  | _ => .error .typeError

/-- Python `xs[0]`: `IndexError` on an empty list. -/
def listGet0 : List α → Except Exn α
  | [] => .error .indexError
  | a :: _ => .ok a

/-- Left-to-right effectful map, as a Python list comprehension
evaluates: the first exception wins. -/
def mapExcept (f : α → Except Exn β) : List α → Except Exn (List β)
  | [] => .ok []
  | a :: rest =>
    match f a with
    | .error e => .error e
    | .ok b =>
      match mapExcept f rest with
      | .error e => .error e
      | .ok bs => .ok (b :: bs)

/-- `[x for x in article_data if x["entityType"] == "Resource"]`. -/
def filterResources : List Json → Except Exn (List Json)
  | [] => .ok []
  | x :: rest =>
    match dictGet x "entityType" with
    | .error e => .error e
    | .ok et =>
      match filterResources rest with
      | .error e => .error e
      | .ok tail => .ok (if jsonEqStr et "Resource" then x :: tail else tail)

/-- `x["properties"]["resource.originalFile"]`. -/
def getOriginalFile (x : Json) : Except Exn Json :=
  match dictGet x "properties" with
  | .error e => .error e
  | .ok props => dictGet props "resource.originalFile"

/-- `[x for x in fil if x["value"]["mimeType"] == "image/tiff"]`. -/
def filterTiff : List Json → Except Exn (List Json)
  | [] => .ok []
  | x :: rest =>
    match dictGet x "value" with
    | .error e => .error e
    | .ok v =>
      match dictGet v "mimeType" with
      | .error e => .error e
      | .ok mt =>
        match filterTiff rest with
        | .error e => .error e
        | .ok tail => .ok (if jsonEqStr mt "image/tiff" then x :: tail else tail)

/-- `x["value"][key]` for one image entry. -/
def valueField (key : String) (x : Json) : Except Exn Json :=
  match dictGet x "value" with
  | .error e => .error e
  | .ok v => dictGet v key

/-- One Page Reference: the dict `{"filename": ..., "url": ...}` the
extractor appends (the filename is stored raw, as Python does). -/
structure PageRef where
  filename : Json
  url : String
deriving Repr

/-- The `file_url` download-URL template of `get_image_paths`, applied
to its three arguments (`str.format` on a fixed template is string
concatenation). -/
def file_url (reference profile mimetype : String) : String :=
  "http://dokumentlager.nordiskamuseet.se/binaryDownload/" ++ reference
    ++ "?profile=" ++ profile ++ "&mimeType=" ++ mimetype

/-- `generate_url`. -/
def generate_url (internal_id : String) : String :=
  "https://dokumentlager.nordiskamuseet.se/api/list/" ++ internal_id ++ "/0/500"

/-- The body of `get_image_paths`' `for fil in files` loop for one
`fil`, producing one Page Reference: filter the `image/tiff` entries,
project each field over the whole filtered list, take element `[0]` of
each projection (an `IndexError` when no entry qualified). -/
def extractPath (fil : Json) : Except Exn PageRef :=
  match asArr fil with
  | .error e => .error e
  | .ok entries =>
  match filterTiff entries with
  | .error e => .error e
  | .ok images =>
  match mapExcept (valueField "reference") images with
  | .error e => .error e
  | .ok refs =>
  match listGet0 refs with
  | .error e => .error e
  | .ok reference =>
  match mapExcept (valueField "mimeType") images with
  | .error e => .error e
  | .ok mimes =>
  match listGet0 mimes with
  | .error e => .error e
  | .ok mimetype =>
  match mapExcept (valueField "profile") images with
  | .error e => .error e
  | .ok profiles =>
  match listGet0 profiles with
  | .error e => .error e
  | .ok profile =>
  match mapExcept (valueField "originalFileName") images with
  | .error e => .error e
  | .ok names =>
  match listGet0 names with
  | .error e => .error e
  | .ok filename =>
    .ok { filename := filename,
          url := file_url (pyStr reference) (pyStr profile) (pyStr mimetype) }

/-- `get_image_paths`, applied to the already-parsed top-level JSON
array (`json.loads` of the raw response). -/
def get_image_paths (article_data : List Json) : Except Exn (List PageRef) :=
  match filterResources article_data with
  | .error e => .error e
  | .ok resources =>
    match mapExcept getOriginalFile resources with
    | .error e => .error e
    | .ok files => mapExcept extractPath files

/-- Whitespace for Python `str.strip()` (the ASCII cases). -/
def isPySpace (c : Char) : Bool :=
  c == ' ' || c == '\t' || c == '\n' || c == '\r' || c == '\x0b' || c == '\x0c'

/-- Python `str.strip()`: drop whitespace from both ends. -/
def pyStrip (s : String) : String :=
  String.mk (((s.data.dropWhile isPySpace).reverse.dropWhile isPySpace).reverse)

/-- Worker for `readlines`: split after every newline, keeping it. -/
def readlinesAux : List Char → List Char → List String
  | [], [] => []
  | [], acc => [String.mk acc.reverse]
  | c :: rest, acc =>
    if c == '\n' then String.mk (acc.reverse ++ [c]) :: readlinesAux rest []
    else readlinesAux rest (c :: acc)

/-- Python `file.readlines()` on the file's text contents. -/
def pyReadlines (s : String) : List String := readlinesAux s.data []

/-- `file_to_list`, applied to the contents of the input file. -/
def file_to_list (contents : String) : List String :=
  (pyReadlines contents).map pyStrip

/-- Lexicographic code-point order on character lists (Python string
comparison, as used by `sorted`). -/
def charListLe : List Char → List Char → Bool
  | [], _ => true
  | _ :: _, [] => false
  | a :: as, b :: bs => if a = b then charListLe as bs else decide (a < b)

/-- Python `<=` on strings. -/
def strLe (a b : String) : Bool := charListLe a.data b.data

/-- Insert into a `le`-sorted list, keeping it sorted. -/
def insertSorted (le : α → α → Bool) (a : α) : List α → List α
  | [] => [a]
  | b :: bs => if le a b then a :: b :: bs else b :: insertSorted le a bs

/-- Executable sort modelling Python `sorted` (for the linear order on
strings every correct sort returns the same list). -/
def sortBy (le : α → α → Bool) : List α → List α
  | [] => []
  | a :: as => insertSorted le a (sortBy le as)

/-- File contents are byte sequences. -/
abbrev Bytes := List Nat

/-- The mutable world the program acts on: existing directories, files
with their contents, the sequence of external commands spawned so far,
and the lines appended to the error log. -/
structure World where
  dirs : List String
  files : List (String × Bytes)
  trace : List (List String)
  errorLog : List String
deriving DecidableEq, Repr

/-- The outside oracle: parsed metadata responses (`requests.get` with
auth + `json.loads`), raw image downloads, directory listings, external
command outcomes and outputs, and PATH lookup (`shutil.which`). -/
structure Env where
  fetch : String → Except Exn (List Json)
  httpGet : String → Except Exn Bytes
  listdir : String → List String
  cmdOk : List String → Bool
  cmdOutput : List String → Bytes
  uWhich : String → Option String

/-- Content of a file, `none` when absent. -/
def lookupFile (files : List (String × Bytes)) (p : String) : Option Bytes :=
  match files.find? (fun e => e.1 == p) with
  | some e => some e.2
  | none => none

/-- Drop a path from the file table. -/
def removeEntry (files : List (String × Bytes)) (p : String) : List (String × Bytes) :=
  files.filter (fun e => e.1 != p)

/-- Write (create or overwrite) a file. -/
def setFile (files : List (String × Bytes)) (p : String) (b : Bytes) : List (String × Bytes) :=
  (p, b) :: removeEntry files p

/-- `os.path.exists`: true for a directory or a file of that name. -/
def pathExists (w : World) (p : String) : Bool :=
  w.dirs.contains p || (lookupFile w.files p).isSome

/-- `create_directory`: `os.mkdir` unless the path already exists. -/
def create_directory (dirname : String) (w : World) : World :=
  if pathExists w dirname then w else { w with dirs := dirname :: w.dirs }

/-- Is the first character list a prefix of the second? -/
def charsPrefix : List Char → List Char → Bool
  | [], _ => true
  | _ :: _, [] => false
  | a :: as, b :: bs => a == b && charsPrefix as bs

/-- Python `str.startswith` (executable model of the byte-level core
function). -/
def strStartsWith (s pre : String) : Bool := charsPrefix pre.data s.data

/-- Python `str.endswith`. -/
def strEndsWith (s suf : String) : Bool := charsPrefix suf.data.reverse s.data.reverse

/-- `os.path.join` for two components (POSIX): an absolute second
component discards the first. -/
def pathJoin (a b : String) : String :=
  if strStartsWith b "/" then b
  else if a == "" then b
  else if strEndsWith a "/" then a ++ b
  else a ++ "/" ++ b

/-- Python `os.remove`: `FileNotFoundError` when the file is absent. -/
def osRemove (path : String) (w : World) : World × Except Exn Unit :=
  if (lookupFile w.files path).isSome then
    ({ w with files := removeEntry w.files path }, .ok ())
  else (w, .error .fileNotFound)

/-- `os.path.join(target_dir, url["filename"])`: `TypeError` when the
stored filename is not a string. -/
def asStr : Json → Except Exn String
  | .str s => .ok s
  | _ => .error .typeError

/-- The `for url in url_list` loop of `download_images`: join the
target path, fetch the url, write the body. -/
def download_images_loop (env : Env) (target_dir : String) :
    List PageRef → World → World × Except Exn Unit
  | [], w => (w, .ok ())
  | url :: rest, w =>
    match asStr url.filename with
    | .error e => (w, .error e)
    | .ok name =>
      match env.httpGet url.url with
      | .error e => (w, .error e)
      | .ok img_data =>
        download_images_loop env target_dir rest
          { w with files := setFile w.files (pathJoin target_dir name) img_data }

/-- `download_images`. -/
def download_images (env : Env) (url_list : List PageRef) (internal_id : String)
    (w : World) : World × Except Exn Unit :=
  download_images_loop env internal_id url_list (create_directory internal_id w)

/-- `download_files_of_article`: authenticated fetch of the metadata
url, extraction, image download. -/
def download_files_of_article (env : Env) (internal_id : String)
    (w : World) : World × Except Exn Unit :=
  match env.fetch (generate_url internal_id) with
  | .error e => (w, .error e)
  | .ok article_data =>
    match get_image_paths article_data with
    | .error e => (w, .error e)
    | .ok article_images => download_images env article_images internal_id w

/-- `subprocess.run(argv, check=True)` for one of the two external
tools: the invocation is recorded, a successful run writes its target
file, a non-zero exit raises. -/
def runCheck (env : Env) (argv : List String) (target : String)
    (w : World) : World × Except Exn Unit :=
  let w1 := { w with trace := w.trace ++ [argv] }
  if env.cmdOk argv then
    ({ w1 with files := setFile w1.files target (env.cmdOutput argv) }, .ok ())
  else (w1, .error .processError)

/-- The `for i, page in enumerate(files, 1)` loop of `create_djvu`. -/
def create_djvu_loop (env : Env) (dirname book_djvu : String) :
    Nat → List String → World → World × Except Exn Unit
  | _, [], w => (w, .ok ())
  | i, page :: rest, w =>
    match runCheck env ["cjb2", "-clean", pathJoin dirname page, "tmp.djvu"] "tmp.djvu" w with
    | (w1, .error e) => (w1, .error e)
    | (w1, .ok _) =>
      match runCheck env
          (if i == 1 then ["djvm", "-c", book_djvu, "tmp.djvu"]
           else ["djvm", "-i", book_djvu, "tmp.djvu"]) book_djvu w1 with
      | (w2, .error e) => (w2, .error e)
      | (w2, .ok _) => create_djvu_loop env dirname book_djvu (i + 1) rest w2

/-- `create_djvu`. -/
def create_djvu (env : Env) (dirname : String) (w : World) : World × Except Exn Unit :=
  let w0 := create_directory "output" w
  let book_djvu := pathJoin "output" (dirname ++ ".djvu")
  let files := sortBy strLe ((env.listdir dirname).filter (fun x => strEndsWith x ".tif"))
  match create_djvu_loop env dirname book_djvu 1 files w0 with
  | (w1, .ok _) => osRemove "tmp.djvu" w1
  | (w1, .error e) => (w1, .error e)

/-- `log_weird_article`: append one line holding the identifier. -/
def log_weird_article (internal_id : String) (w : World) : World :=
  { w with errorLog := w.errorLog ++ [internal_id ++ "\n"] }

/-- The `for int_id in ids` loop of `main`: catch `IndexError` from the
fetch/extract/download sequence (log and continue), run `create_djvu`
outside the `try`. -/
def main_loop (env : Env) : List String → World → World × Except Exn Unit
  | [], w => (w, .ok ())
  | int_id :: rest, w =>
    match download_files_of_article env int_id w with
    | (w1, .ok _) =>
      match create_djvu env int_id w1 with
      | (w2, .ok _) => main_loop env rest w2
      | (w2, .error e) => (w2, .error e)
    | (w1, .error .indexError) => main_loop env rest (log_weird_article int_id w1)
    | (w1, .error e) => (w1, .error e)

/-- `main` (renamed: Lean reserves `main`): load the identifier list, loop. -/
def main_fn (env : Env) (listContents : String) (w : World) : World × Except Exn Unit :=
  main_loop env (file_to_list listContents) w

/-- `can_djvu`: both external tools resolvable on PATH. -/
def can_djvu (env : Env) : Bool :=
  (env.uWhich "djvm").isSome && (env.uWhich "cjb2").isSome

/-- The `__main__` block: the prerequisite check runs before anything
else; on failure `Exception('Djvu utils djvm and cjb2 not found.')` is
raised and `main` is never entered. -/
def main_entry (env : Env) (listContents : String) (w : World) : World × Except Exn Unit :=
  if can_djvu env then main_fn env listContents w
  else (w, .error (.pyException "Djvu utils djvm and cjb2 not found."))

/-! ### Described input shapes

To state properties over well-formed metadata, records of the JSON
shape the API serves are described by `FileSpec`/`RecordSpec` and
rendered to `Json` by `toJson`. -/

/-- One entry of a record's nested `resource.originalFile` list, with
all four fields the extractor reads present and string-valued. -/
structure FileSpec where
  mimeType : String
  reference : String
  profile : String
  originalFileName : String
deriving DecidableEq, Repr

/-- Render a file entry to its JSON shape. -/
def FileSpec.toJson (f : FileSpec) : Json :=
  .obj [("value", .obj [("mimeType", .str f.mimeType), ("reference", .str f.reference),
        ("profile", .str f.profile), ("originalFileName", .str f.originalFileName)])]

/-- One top-level record with its entity kind and nested file list. -/
structure RecordSpec where
  entityType : String
  files : List FileSpec
deriving Repr

/-- Render a record to its JSON shape. -/
def RecordSpec.toJson (r : RecordSpec) : Json :=
  .obj [("entityType", .str r.entityType),
        ("properties", .obj [("resource.originalFile", .arr (r.files.map FileSpec.toJson))])]

/-- Does a file entry declare MIME type `image/tiff`? -/
def isTiff (f : FileSpec) : Bool := f.mimeType == "image/tiff"

/-- The first `image/tiff` entry of a file list, if any. -/
def firstTiff (fs : List FileSpec) : Option FileSpec := fs.find? isTiff

/-- The Page Reference the spec prescribes for a record whose first
`image/tiff` entry is `f`: the filename is that entry's original
filename, the URL instantiates the `binaryDownload` template with that
entry's reference token, profile and MIME type. -/
def specRef (f : FileSpec) : PageRef :=
  { filename := .str f.originalFileName,
    url := file_url f.reference f.profile f.mimeType }

/-- The external-command sequence the spec prescribes for the Document
Assembler on a page list, with a 1-based index: per page one encoder
call, then the merger in create mode for index 1 and insert mode
otherwise. -/
def assemblerSpecTrace (dirname book : String) : Nat → List String → List (List String)
  | _, [] => []
  | i, p :: rest =>
    ["cjb2", "-clean", pathJoin dirname p, "tmp.djvu"]
    :: (if i == 1 then ["djvm", "-c", book, "tmp.djvu"]
        else ["djvm", "-i", book, "tmp.djvu"])
    :: assemblerSpecTrace dirname book (i + 1) rest

/-- A merger invocation in create mode. -/
def isCreateCmd : List String → Bool
  | "djvm" :: "-c" :: _ => true
  | _ => false

/-! ### Helper lemmas -/

theorem mapExcept_ok_map {α β} {f : α → Except Exn β} {g : α → β} :
    ∀ l : List α, (∀ a ∈ l, f a = .ok (g a)) → mapExcept f l = .ok (l.map g)
  | [], _ => rfl
  | a :: rest, h => by
    have ha := h a (by simp)
    have hr := mapExcept_ok_map rest (fun x hx => h x (by simp [hx]))
    simp [mapExcept, ha, hr]

theorem mapExcept_congr {α β} {f g : α → Except Exn β} :
    ∀ l : List α, (∀ a ∈ l, f a = g a) → mapExcept f l = mapExcept g l
  | [], _ => rfl
  | a :: rest, h => by
    have := mapExcept_congr (f := f) (g := g) rest (fun x hx => h x (by simp [hx]))
    simp [mapExcept, h a (by simp), this]

theorem mapExcept_map {α β γ} (f : β → Except Exn γ) (g : α → β) :
    ∀ l : List α, mapExcept f (l.map g) = mapExcept (fun a => f (g a)) l
  | [] => rfl
  | a :: rest => by simp [mapExcept, mapExcept_map f g rest]

theorem mapExcept_mem_ok {α β} {f : α → Except Exn β} (l : List α) (bs : List β)
    (h : mapExcept f l = .ok bs) : ∀ b ∈ bs, ∃ a ∈ l, f a = .ok b := by
  induction l generalizing bs with
  | nil =>
    simp only [mapExcept] at h
    injection h with h'
    subst h'
    simp
  | cons a rest ih =>
    simp only [mapExcept] at h
    cases hfa : f a with
    | error e => rw [hfa] at h; cases h
    | ok v =>
      rw [hfa] at h
      cases hrest : mapExcept f rest with
      | error e => rw [hrest] at h; cases h
      | ok vs =>
        rw [hrest] at h
        injection h with h'
        subst h'
        intro b hb
        rcases List.mem_cons.mp hb with rfl | hb'
        · exact ⟨a, by simp, hfa⟩
        · rcases ih vs hrest b hb' with ⟨x, hx, hfx⟩
          exact ⟨x, by simp [hx], hfx⟩

theorem dictGet_entityType (r : RecordSpec) :
    dictGet (RecordSpec.toJson r) "entityType" = .ok (.str r.entityType) := rfl

theorem getOriginalFile_spec (r : RecordSpec) :
    getOriginalFile (RecordSpec.toJson r) = .ok (.arr (r.files.map FileSpec.toJson)) := rfl

theorem valueField_mime (f : FileSpec) :
    valueField "mimeType" (FileSpec.toJson f) = .ok (.str f.mimeType) := rfl

theorem valueField_reference (f : FileSpec) :
    valueField "reference" (FileSpec.toJson f) = .ok (.str f.reference) := rfl

theorem valueField_profile (f : FileSpec) :
    valueField "profile" (FileSpec.toJson f) = .ok (.str f.profile) := rfl

theorem valueField_originalFileName (f : FileSpec) :
    valueField "originalFileName" (FileSpec.toJson f) = .ok (.str f.originalFileName) := rfl

theorem filterResources_cons (r : RecordSpec) (l : List Json) :
    filterResources (RecordSpec.toJson r :: l)
      = match filterResources l with
        | .error e => .error e
        | .ok tail =>
          .ok (if r.entityType == "Resource" then RecordSpec.toJson r :: tail else tail) := rfl

theorem filterResources_spec : ∀ recs : List RecordSpec,
    filterResources (recs.map RecordSpec.toJson)
      = .ok ((recs.filter (fun r => r.entityType == "Resource")).map RecordSpec.toJson) := by
  intro recs
  induction recs with
  | nil => rfl
  | cons r rest ih =>
    rw [List.map_cons, filterResources_cons, ih]
    cases hr : (r.entityType == "Resource") <;> simp [List.filter_cons, hr]

theorem filterTiff_cons (f : FileSpec) (l : List Json) :
    filterTiff (FileSpec.toJson f :: l)
      = match filterTiff l with
        | .error e => .error e
        | .ok tail => .ok (if isTiff f then FileSpec.toJson f :: tail else tail) := rfl

theorem filterTiff_spec : ∀ fs : List FileSpec,
    filterTiff (fs.map FileSpec.toJson) = .ok ((fs.filter isTiff).map FileSpec.toJson) := by
  intro fs
  induction fs with
  | nil => rfl
  | cons f rest ih =>
    rw [List.map_cons, filterTiff_cons, ih]
    cases hr : isTiff f <;> simp [List.filter_cons, hr]

theorem find?_eq_head_filter {α} (p : α → Bool) : ∀ l : List α, l.find? p = (l.filter p).head?
  | [] => rfl
  | a :: rest => by
    cases ha : p a
    · rw [List.find?_cons_of_neg _ (by simp [ha]), List.filter_cons_of_neg (by simp [ha])]
      exact find?_eq_head_filter p rest
    · rw [List.find?_cons_of_pos _ ha, List.filter_cons_of_pos ha]
      rfl

theorem extractPath_spec (fs : List FileSpec) :
    extractPath (.arr (fs.map FileSpec.toJson))
      = match firstTiff fs with
        | some f => .ok (specRef f)
        | none => .error .indexError := by
  simp only [extractPath, asArr, filterTiff_spec]
  cases hft : fs.filter isTiff with
  | nil =>
    have hnone : firstTiff fs = none := by
      rw [firstTiff, find?_eq_head_filter isTiff fs, hft]; rfl
    simp [mapExcept, listGet0, hnone]
  | cons f tail =>
    have hsome : firstTiff fs = some f := by
      rw [firstTiff, find?_eq_head_filter isTiff fs, hft]; rfl
    rw [hsome]
    have h1 : mapExcept (valueField "reference") ((f :: tail).map FileSpec.toJson)
        = .ok ((f :: tail).map (fun g => Json.str g.reference)) := by
      rw [mapExcept_map]
      exact mapExcept_ok_map _ (fun a _ => valueField_reference a)
    have h2 : mapExcept (valueField "mimeType") ((f :: tail).map FileSpec.toJson)
        = .ok ((f :: tail).map (fun g => Json.str g.mimeType)) := by
      rw [mapExcept_map]
      exact mapExcept_ok_map _ (fun a _ => valueField_mime a)
    have h3 : mapExcept (valueField "profile") ((f :: tail).map FileSpec.toJson)
        = .ok ((f :: tail).map (fun g => Json.str g.profile)) := by
      rw [mapExcept_map]
      exact mapExcept_ok_map _ (fun a _ => valueField_profile a)
    have h4 : mapExcept (valueField "originalFileName") ((f :: tail).map FileSpec.toJson)
        = .ok ((f :: tail).map (fun g => Json.str g.originalFileName)) := by
      rw [mapExcept_map]
      exact mapExcept_ok_map _ (fun a _ => valueField_originalFileName a)
    simp only [List.map_cons] at h1 h2 h3 h4
    simp [h1, h2, h3, h4, listGet0, specRef, pyStr]

theorem get_image_paths_spec (recs : List RecordSpec) :
    get_image_paths (recs.map RecordSpec.toJson)
      = mapExcept (fun r => match firstTiff r.files with
          | some f => Except.ok (specRef f)
          | none => Except.error Exn.indexError)
        (recs.filter (fun r => r.entityType == "Resource")) := by
  have h1 : mapExcept getOriginalFile
      ((recs.filter (fun r => r.entityType == "Resource")).map RecordSpec.toJson)
      = .ok ((recs.filter (fun r => r.entityType == "Resource")).map
          (fun a => Json.arr (a.files.map FileSpec.toJson))) := by
    rw [mapExcept_map]
    exact mapExcept_ok_map _ (fun a _ => getOriginalFile_spec a)
  simp only [get_image_paths, filterResources_spec, h1]
  rw [mapExcept_map]
  exact mapExcept_congr _ (fun r _ => extractPath_spec r.files)

theorem mapExcept_firstTiff_ok : ∀ l : List RecordSpec,
    (∀ r ∈ l, (firstTiff r.files).isSome) →
    mapExcept (fun r => match firstTiff r.files with
        | some f => Except.ok (specRef f)
        | none => Except.error Exn.indexError) l
      = .ok (l.filterMap (fun r => (firstTiff r.files).map specRef))
    ∧ (l.filterMap (fun r => (firstTiff r.files).map specRef)).length = l.length := by
  intro l
  induction l with
  | nil => exact fun _ => ⟨rfl, rfl⟩
  | cons r rest ih =>
    intro h
    cases hf : firstTiff r.files with
    | none => exact absurd (h r (by simp)) (by simp [hf])
    | some f =>
      obtain ⟨ih1, ih2⟩ := ih (fun x hx => h x (by simp [hx]))
      constructor
      · simp [mapExcept, hf, ih1, List.filterMap_cons]
      · simp [List.filterMap_cons, hf, ih2]

theorem mapExcept_firstTiff_err : ∀ l : List RecordSpec,
    (∃ r ∈ l, firstTiff r.files = none) →
    mapExcept (fun r => match firstTiff r.files with
        | some f => Except.ok (specRef f)
        | none => Except.error Exn.indexError) l = .error .indexError := by
  intro l
  induction l with
  | nil => rintro ⟨r, hr, _⟩; cases hr
  | cons a rest ih =>
    rintro ⟨r, hr, hnone⟩
    rcases List.mem_cons.mp hr with rfl | hr'
    · simp [mapExcept, hnone]
    · cases hf : firstTiff a.files with
      | none => simp [mapExcept, hf]
      | some f =>
        have hrec := ih ⟨r, hr', hnone⟩
        simp [mapExcept, hf, hrec]

/-- Claim C1: an identifier whose metadata holds a `Resource` record
with zero `image/tiff` entries makes extraction fail with `IndexError`;
the driver then appends exactly one line holding that identifier to the
error log and continues with the remaining identifiers, touching
nothing else in the world (in particular producing no output
document). -/
theorem c1_zero_tiff_is_logged_and_skipped (env : Env) (int_id : String)
    (rest : List String) (w : World) (recs : List RecordSpec)
    (hfetch : env.fetch (generate_url int_id) = .ok (recs.map RecordSpec.toJson))
    (hbad : ∃ r ∈ recs, r.entityType = "Resource" ∧ firstTiff r.files = none) :
    get_image_paths (recs.map RecordSpec.toJson) = .error .indexError
    ∧ main_loop env (int_id :: rest) w = main_loop env rest (log_weird_article int_id w)
    ∧ (log_weird_article int_id w).errorLog = w.errorLog ++ [int_id ++ "\n"]
    ∧ (log_weird_article int_id w).files = w.files
    ∧ (log_weird_article int_id w).dirs = w.dirs := by
  obtain ⟨r, hr, hres, hnone⟩ := hbad
  have hext : get_image_paths (recs.map RecordSpec.toJson) = .error .indexError := by
    rw [get_image_paths_spec]
    exact mapExcept_firstTiff_err _ ⟨r, List.mem_filter.mpr ⟨hr, by simp [hres]⟩, hnone⟩
  have hdl : download_files_of_article env int_id w = (w, .error .indexError) := by
    simp [download_files_of_article, hfetch, hext]
  refine ⟨hext, ?_, rfl, rfl, rfl⟩
  simp [main_loop, hdl]

theorem c1_witness :
    get_image_paths (([⟨"Resource", []⟩] : List RecordSpec).map RecordSpec.toJson)
      = .error .indexError
    ∧ main_loop
        (⟨fun _ => .ok (([⟨"Resource", []⟩] : List RecordSpec).map RecordSpec.toJson),
          fun _ => .error .httpError, fun _ => [], fun _ => true, fun _ => [],
          fun _ => none⟩ : Env)
        ["a", "b"] ⟨[], [], [], []⟩
      = main_loop
        (⟨fun _ => .ok (([⟨"Resource", []⟩] : List RecordSpec).map RecordSpec.toJson),
          fun _ => .error .httpError, fun _ => [], fun _ => true, fun _ => [],
          fun _ => none⟩ : Env)
        ["b"] (log_weird_article "a" ⟨[], [], [], []⟩)
    ∧ (log_weird_article "a" (⟨[], [], [], []⟩ : World)).errorLog = [] ++ ["a" ++ "\n"]
    ∧ (log_weird_article "a" (⟨[], [], [], []⟩ : World)).files = []
    ∧ (log_weird_article "a" (⟨[], [], [], []⟩ : World)).dirs = [] := by
  exact c1_zero_tiff_is_logged_and_skipped _ "a" ["b"] ⟨[], [], [], []⟩
    [⟨"Resource", []⟩] rfl ⟨⟨"Resource", []⟩, by simp, rfl, rfl⟩

/-- Claim C3: over a parsed response of well-formed records, the
extractor keeps exactly the `Resource` records, in their original
order, and maps each to the Page Reference of its first `image/tiff`
entry (`specRef`: URL instantiated from the `binaryDownload` template
with that entry's reference, profile and MIME type; filename that
entry's original filename); as many references as `Resource` records. -/
theorem c3_extractor_refs_in_record_order (recs : List RecordSpec)
    (h : ∀ r ∈ recs, r.entityType = "Resource" → (firstTiff r.files).isSome) :
    get_image_paths (recs.map RecordSpec.toJson)
      = .ok ((recs.filter (fun r => r.entityType == "Resource")).filterMap
          (fun r => (firstTiff r.files).map specRef))
    ∧ ((recs.filter (fun r => r.entityType == "Resource")).filterMap
          (fun r => (firstTiff r.files).map specRef)).length
        = (recs.filter (fun r => r.entityType == "Resource")).length := by
  have h' : ∀ r ∈ recs.filter (fun r => r.entityType == "Resource"),
      (firstTiff r.files).isSome := by
    intro r hr
    obtain ⟨hmem, hcond⟩ := List.mem_filter.mp hr
    exact h r hmem (by simpa using hcond)
  obtain ⟨h1, h2⟩ := mapExcept_firstTiff_ok _ h'
  exact ⟨by rw [get_image_paths_spec]; exact h1, h2⟩

theorem c3_witness :
    get_image_paths (([⟨"Resource",
          [⟨"text/xml", "x", "px", "a.xml"⟩,
           ⟨"image/tiff", "r1", "p1", "page1.tif"⟩,
           ⟨"image/tiff", "r2", "p2", "page2.tif"⟩]⟩,
        ⟨"Collection", []⟩,
        ⟨"Resource", [⟨"image/tiff", "r3", "p3", "page3.tif"⟩]⟩] : List RecordSpec).map
        RecordSpec.toJson)
      = .ok [⟨.str "page1.tif", file_url "r1" "p1" "image/tiff"⟩,
             ⟨.str "page3.tif", file_url "r3" "p3" "image/tiff"⟩]
    ∧ ((([⟨"Resource",
          [⟨"text/xml", "x", "px", "a.xml"⟩,
           ⟨"image/tiff", "r1", "p1", "page1.tif"⟩,
           ⟨"image/tiff", "r2", "p2", "page2.tif"⟩]⟩,
        ⟨"Collection", []⟩,
        ⟨"Resource", [⟨"image/tiff", "r3", "p3", "page3.tif"⟩]⟩] : List RecordSpec).filter
            (fun r => r.entityType == "Resource")).filterMap
          (fun r => (firstTiff r.files).map specRef)).length = 2 := by
  have h := c3_extractor_refs_in_record_order
    [⟨"Resource",
        [⟨"text/xml", "x", "px", "a.xml"⟩,
         ⟨"image/tiff", "r1", "p1", "page1.tif"⟩,
         ⟨"image/tiff", "r2", "p2", "page2.tif"⟩]⟩,
      ⟨"Collection", []⟩,
      ⟨"Resource", [⟨"image/tiff", "r3", "p3", "page3.tif"⟩]⟩] (by decide)
  exact ⟨by rw [h.1]; rfl, by rw [h.2]; rfl⟩

/-- Claim C2: the driver recovers only `IndexError`: (a) any other
exception from the fetch/extract/download sequence aborts the run with
the remaining identifiers unprocessed; (b) any exception during
document assembly aborts likewise; (c) the caught region spans the
whole fetch/extract/download sequence, so an `IndexError` arising
anywhere in it is treated as a malformed article (logged, run
continues). -/
theorem c2_only_index_error_recovered (env : Env) (int_id : String)
    (rest : List String) (w w1 w2 : World) :
    (∀ e, e ≠ Exn.indexError → download_files_of_article env int_id w = (w1, .error e) →
      main_loop env (int_id :: rest) w = (w1, .error e))
    ∧ (∀ e, download_files_of_article env int_id w = (w1, .ok ()) →
        create_djvu env int_id w1 = (w2, .error e) →
        main_loop env (int_id :: rest) w = (w2, .error e))
    ∧ (download_files_of_article env int_id w = (w1, .error .indexError) →
        main_loop env (int_id :: rest) w = main_loop env rest (log_weird_article int_id w1)) := by
  refine ⟨?_, ?_, ?_⟩
  · intro e he h
    cases e
    case indexError => exact absurd rfl he
    all_goals simp [main_loop, h]
  · intro e h1 h2
    simp [main_loop, h1, h2]
  · intro h
    simp [main_loop, h]

theorem c2_witness :
    main_loop (⟨fun _ => .error .httpError, fun _ => .error .httpError, fun _ => [],
        fun _ => true, fun _ => [], fun _ => none⟩ : Env) ["x", "y"] ⟨[], [], [], []⟩
      = (⟨[], [], [], []⟩, .error .httpError)
    ∧ main_loop (⟨fun _ => .ok [], fun _ => .error .httpError, fun _ => [],
        fun _ => true, fun _ => [], fun _ => none⟩ : Env) ["x", "y"] ⟨[], [], [], []⟩
      = (⟨["output", "x"], [], [], []⟩, .error .fileNotFound)
    ∧ main_loop (⟨fun _ => .ok [RecordSpec.toJson ⟨"Resource",
          [⟨"image/tiff", "r", "p", "page1.tif"⟩]⟩],
        fun _ => .error .indexError, fun _ => [],
        fun _ => true, fun _ => [], fun _ => none⟩ : Env) ["x", "y"] ⟨[], [], [], []⟩
      = main_loop (⟨fun _ => .ok [RecordSpec.toJson ⟨"Resource",
          [⟨"image/tiff", "r", "p", "page1.tif"⟩]⟩],
        fun _ => .error .indexError, fun _ => [],
        fun _ => true, fun _ => [], fun _ => none⟩ : Env) ["y"]
        (log_weird_article "x" ⟨["x"], [], [], []⟩) := by
  refine ⟨?_, ?_, ?_⟩
  · exact (c2_only_index_error_recovered _ "x" ["y"] ⟨[], [], [], []⟩ ⟨[], [], [], []⟩
      ⟨[], [], [], []⟩).1 .httpError (by decide) rfl
  · exact (c2_only_index_error_recovered _ "x" ["y"] ⟨[], [], [], []⟩ ⟨["x"], [], [], []⟩
      ⟨["output", "x"], [], [], []⟩).2.1 .fileNotFound rfl rfl
  · exact (c2_only_index_error_recovered _ "x" ["y"] ⟨[], [], [], []⟩ ⟨["x"], [], [], []⟩
      ⟨[], [], [], []⟩).2.2 rfl

/-- Claim C10: a metadata record that lacks one of the keys the
extractor reads (`entityType`, `properties`, `resource.originalFile`,
or a file entry's `value`/`mimeType`) raises `KeyError`, not the
anticipated `IndexError`; the driver therefore does not log the
identifier (the world is returned unchanged) and the whole run
terminates at that article. -/
theorem c10_missing_key_aborts_run (env : Env) (int_id : String)
    (rest : List String) (w : World) (recs : List Json)
    (hfetch : env.fetch (generate_url int_id) = .ok recs)
    (hkey : get_image_paths recs = .error .keyError) :
    main_loop env (int_id :: rest) w = (w, .error .keyError)
    ∧ get_image_paths [Json.obj []] = .error .keyError
    ∧ get_image_paths [Json.obj [("entityType", Json.str "Resource")]] = .error .keyError
    ∧ get_image_paths [Json.obj [("entityType", Json.str "Resource"),
        ("properties", Json.obj [])]] = .error .keyError
    ∧ get_image_paths [Json.obj [("entityType", Json.str "Resource"),
        ("properties", Json.obj [("resource.originalFile", Json.arr [Json.obj []])])]]
        = .error .keyError
    ∧ get_image_paths [Json.obj [("entityType", Json.str "Resource"),
        ("properties", Json.obj [("resource.originalFile",
          Json.arr [Json.obj [("value", Json.obj [("reference", Json.str "r")])]])])]]
        = .error .keyError := by
  have hdl : download_files_of_article env int_id w = (w, .error .keyError) := by
    simp [download_files_of_article, hfetch, hkey]
  refine ⟨?_, rfl, rfl, rfl, rfl, rfl⟩
  simp [main_loop, hdl]

theorem c10_witness :
    main_loop (⟨fun _ => .ok [Json.obj []], fun _ => .error .httpError, fun _ => [],
        fun _ => true, fun _ => [], fun _ => none⟩ : Env) ["a", "b"] ⟨[], [], [], []⟩
      = (⟨[], [], [], []⟩, .error .keyError)
    ∧ get_image_paths [Json.obj []] = .error .keyError
    ∧ get_image_paths [Json.obj [("entityType", Json.str "Resource")]] = .error .keyError
    ∧ get_image_paths [Json.obj [("entityType", Json.str "Resource"),
        ("properties", Json.obj [])]] = .error .keyError
    ∧ get_image_paths [Json.obj [("entityType", Json.str "Resource"),
        ("properties", Json.obj [("resource.originalFile", Json.arr [Json.obj []])])]]
        = .error .keyError
    ∧ get_image_paths [Json.obj [("entityType", Json.str "Resource"),
        ("properties", Json.obj [("resource.originalFile",
          Json.arr [Json.obj [("value", Json.obj [("reference", Json.str "r")])]])])]]
        = .error .keyError := by
  exact c10_missing_key_aborts_run _ "a" ["b"] ⟨[], [], [], []⟩ [Json.obj []] rfl rfl

/-- Claim C8: if either required external executable (`djvm` or `cjb2`)
is not resolvable on the search path, the process aborts at startup
with the explanatory message, before loading the input list (the result
does not depend on the list contents) and before any other work (the
world is returned unchanged). -/
theorem c8_missing_tool_aborts_at_startup (env : Env)
    (h : env.uWhich "djvm" = none ∨ env.uWhich "cjb2" = none) :
    ∀ (listContents : String) (w : World),
      main_entry env listContents w
        = (w, .error (.pyException "Djvu utils djvm and cjb2 not found.")) := by
  intro listContents w
  have hc : can_djvu env = false := by
    rcases h with h | h <;> simp [can_djvu, h]
  simp [main_entry, hc]

theorem c8_witness :
    main_entry (⟨fun _ => .ok [], fun _ => .ok [], fun _ => [],
        fun _ => true, fun _ => [], fun _ => none⟩ : Env) "a\nb\n" ⟨[], [], [], []⟩
      = (⟨[], [], [], []⟩, .error (.pyException "Djvu utils djvm and cjb2 not found.")) := by
  exact c8_missing_tool_aborts_at_startup _ (Or.inl rfl) "a\nb\n" ⟨[], [], [], []⟩

theorem create_directory_files (d : String) (w : World) :
    (create_directory d w).files = w.files := by
  unfold create_directory; split <;> rfl

theorem create_directory_trace (d : String) (w : World) :
    (create_directory d w).trace = w.trace := by
  unfold create_directory; split <;> rfl

/-- Claim C9: on a workspace with zero `.tif` files, `create_djvu`
creates the output directory, invokes no external command (trace
unchanged) and produces no output document (files unchanged), and still
attempts to delete `tmp.djvu` — raising `FileNotFoundError`, which
terminates the run, whenever no temporary file was left behind. -/
theorem c9_empty_workspace_remove_fails (env : Env) (int_id : String)
    (rest : List String) (w w1 : World)
    (hlist : (env.listdir int_id).filter (fun x => strEndsWith x ".tif") = [])
    (hdl : download_files_of_article env int_id w = (w1, .ok ()))
    (htmp : lookupFile w1.files "tmp.djvu" = none) :
    create_djvu env int_id w1 = (create_directory "output" w1, .error .fileNotFound)
    ∧ (create_directory "output" w1).trace = w1.trace
    ∧ (create_directory "output" w1).files = w1.files
    ∧ main_loop env (int_id :: rest) w = (create_directory "output" w1, .error .fileNotFound) := by
  have htmp0 : lookupFile (create_directory "output" w1).files "tmp.djvu" = none := by
    rw [create_directory_files]; exact htmp
  have hcd : create_djvu env int_id w1
      = (create_directory "output" w1, .error .fileNotFound) := by
    simp only [create_djvu, hlist]
    simp [sortBy, create_djvu_loop, osRemove, htmp0]
  refine ⟨hcd, create_directory_trace _ _, create_directory_files _ _, ?_⟩
  simp [main_loop, hdl, hcd]

theorem c9_witness :
    create_djvu (⟨fun _ => .ok [], fun _ => .error .httpError, fun _ => [],
        fun _ => true, fun _ => [], fun _ => none⟩ : Env) "x" ⟨["x"], [], [], []⟩
      = (create_directory "output" ⟨["x"], [], [], []⟩, .error .fileNotFound)
    ∧ (create_directory "output" (⟨["x"], [], [], []⟩ : World)).trace = ([] : List (List String))
    ∧ (create_directory "output" (⟨["x"], [], [], []⟩ : World)).files
        = ([] : List (String × Bytes))
    ∧ main_loop (⟨fun _ => .ok [], fun _ => .error .httpError, fun _ => [],
        fun _ => true, fun _ => [], fun _ => none⟩ : Env) ["x"] ⟨[], [], [], []⟩
      = (create_directory "output" ⟨["x"], [], [], []⟩, .error .fileNotFound) := by
  exact c9_empty_workspace_remove_fails _ "x" [] ⟨[], [], [], []⟩ ⟨["x"], [], [], []⟩
    rfl rfl rfl

theorem charListLe_trans : ∀ (x y z : List Char),
    charListLe x y = true → charListLe y z = true → charListLe x z = true
  | [], _, _, _, _ => rfl
  | _ :: _, [], _, h1, _ => by simp [charListLe] at h1
  | _ :: _, _ :: _, [], _, h2 => by simp [charListLe] at h2
  | a :: as, b :: bs, c :: cs, h1, h2 => by
    simp only [charListLe] at h1 h2 ⊢
    by_cases hab : a = b
    · subst hab
      by_cases hac : a = c
      · subst hac
        simp only [if_pos rfl] at h1 h2 ⊢
        exact charListLe_trans as bs cs h1 h2
      · simp only [if_pos rfl] at h1
        simp only [if_neg hac] at h2 ⊢
        exact h2
    · simp only [if_neg hab] at h1
      by_cases hbc : b = c
      · subst hbc
        simp only [if_neg hab] at h2 ⊢
        exact h1
      · simp only [if_neg hbc] at h2
        have h1' := of_decide_eq_true h1
        have h2' := of_decide_eq_true h2
        have hac : a < c := lt_trans h1' h2'
        simp [ne_of_lt hac, hac]

theorem charListLe_total : ∀ (x y : List Char),
    charListLe x y = false → charListLe y x = true
  | [], _, h => by simp [charListLe] at h
  | _ :: _, [], _ => rfl
  | a :: as, b :: bs, h => by
    simp only [charListLe] at h ⊢
    by_cases hab : a = b
    · subst hab
      simp only [if_pos rfl] at h ⊢
      exact charListLe_total as bs h
    · simp only [if_neg hab] at h
      have hnab : ¬ a < b := of_decide_eq_false h
      have hba : b < a := lt_of_le_of_ne (le_of_not_lt hnab) (fun hc => hab hc.symm)
      have hbna : ¬ b = a := fun hc => hab hc.symm
      simp only [if_neg hbna]
      exact decide_eq_true hba

theorem strLe_trans (x y z : String) (h1 : strLe x y = true) (h2 : strLe y z = true) :
    strLe x z = true :=
  charListLe_trans x.data y.data z.data h1 h2

theorem strLe_total (x y : String) (h : strLe x y = false) : strLe y x = true :=
  charListLe_total x.data y.data h

theorem insertSorted_perm {α} (le : α → α → Bool) (a : α) :
    ∀ l : List α, (insertSorted le a l).Perm (a :: l)
  | [] => List.Perm.refl _
  | b :: bs => by
    simp only [insertSorted]
    split
    · exact List.Perm.refl _
    · exact ((insertSorted_perm le a bs).cons b).trans (List.Perm.swap a b bs)

theorem sortBy_perm {α} (le : α → α → Bool) : ∀ l : List α, (sortBy le l).Perm l
  | [] => List.Perm.refl _
  | a :: as => (insertSorted_perm le a (sortBy le as)).trans ((sortBy_perm le as).cons a)

theorem insertSorted_pairwise {α} (le : α → α → Bool)
    (htrans : ∀ x y z, le x y = true → le y z = true → le x z = true)
    (htot : ∀ x y, le x y = false → le y x = true) (a : α) :
    ∀ l : List α, l.Pairwise (fun x y => le x y = true) →
      (insertSorted le a l).Pairwise (fun x y => le x y = true)
  | [], _ => by simp [insertSorted]
  | b :: bs, hp => by
    obtain ⟨hb, hbs⟩ := List.pairwise_cons.mp hp
    simp only [insertSorted]
    split
    case isTrue hab =>
      refine List.pairwise_cons.mpr ⟨?_, hp⟩
      intro x hx
      rcases List.mem_cons.mp hx with rfl | hx'
      · exact hab
      · exact htrans a b x hab (hb x hx')
    case isFalse hab =>
      have hab' : le a b = false := by revert hab; cases le a b <;> simp
      refine List.pairwise_cons.mpr ⟨?_, insertSorted_pairwise le htrans htot a bs hbs⟩
      intro x hx
      have hmem := (insertSorted_perm le a bs).mem_iff.mp hx
      rcases List.mem_cons.mp hmem with hxa | hx'
      · rw [hxa]; exact htot a b hab'
      · exact hb x hx'

theorem sortBy_pairwise {α} (le : α → α → Bool)
    (htrans : ∀ x y z, le x y = true → le y z = true → le x z = true)
    (htot : ∀ x y, le x y = false → le y x = true) :
    ∀ l : List α, (sortBy le l).Pairwise (fun x y => le x y = true)
  | [] => by simp [sortBy]
  | a :: as => insertSorted_pairwise le htrans htot a _ (sortBy_pairwise le htrans htot as)

theorem isCreateCmd_cjb2 (l : List String) : isCreateCmd ("cjb2" :: l) = false := rfl

theorem isCreateCmd_djvmI (l : List String) : isCreateCmd ("djvm" :: "-i" :: l) = false := rfl

theorem isCreateCmd_djvmC (l : List String) : isCreateCmd ("djvm" :: "-c" :: l) = true := rfl

theorem specTrace_no_create (dirname book : String) :
    ∀ (ps : List String) (i : Nat), 2 ≤ i →
      ((assemblerSpecTrace dirname book i ps).filter isCreateCmd).length = 0
  | [], _, _ => rfl
  | p :: ps, i, hi => by
    have hne : (i == 1) = false := by simp; omega
    simp only [assemblerSpecTrace, hne, if_neg Bool.false_ne_true]
    simp only [List.filter_cons, isCreateCmd_cjb2, isCreateCmd_djvmI]
    exact specTrace_no_create dirname book ps (i + 1) (by omega)

theorem specTrace_create_once (dirname book : String) (p : String) (ps : List String) :
    ((assemblerSpecTrace dirname book 1 (p :: ps)).filter isCreateCmd).length = 1 := by
  simp only [assemblerSpecTrace, beq_self_eq_true, if_pos]
  simp only [List.filter_cons, isCreateCmd_cjb2, isCreateCmd_djvmC]
  simp [specTrace_no_create dirname book ps 2 (by omega)]

theorem lookupFile_removeEntry_self (fs : List (String × Bytes)) (p : String) :
    lookupFile (removeEntry fs p) p = none := by
  induction fs with
  | nil => rfl
  | cons e fs ih =>
    by_cases hk : e.1 = p
    · simpa [removeEntry, List.filter_cons, hk] using ih
    · have hne : (e.1 != p) = true := by simp [hk]
      simp only [removeEntry, List.filter_cons, hne, if_pos]
      simpa [lookupFile, List.find?_cons, show (e.1 == p) = false by simp [hk],
        removeEntry] using ih

theorem runCheck_ok (env : Env) (argv : List String) (target : String) (w : World)
    (h : env.cmdOk argv = true) :
    runCheck env argv target w
      = (⟨w.dirs, setFile w.files target (env.cmdOutput argv),
          w.trace ++ [argv], w.errorLog⟩, .ok ()) := by
  simp [runCheck, h]

theorem runCheck_err (env : Env) (argv : List String) (target : String) (w : World)
    (h : env.cmdOk argv = false) :
    runCheck env argv target w
      = (⟨w.dirs, w.files, w.trace ++ [argv], w.errorLog⟩, .error .processError) := by
  simp [runCheck, h]

theorem create_djvu_loop_cons (env : Env) (dirname book : String) (i : Nat)
    (p : String) (rest : List String) (w : World) :
    create_djvu_loop env dirname book i (p :: rest) w
      = match runCheck env ["cjb2", "-clean", pathJoin dirname p, "tmp.djvu"] "tmp.djvu" w with
        | (w1, .error e) => (w1, .error e)
        | (w1, .ok _) =>
          match runCheck env
              (if i == 1 then ["djvm", "-c", book, "tmp.djvu"]
               else ["djvm", "-i", book, "tmp.djvu"]) book w1 with
          | (w2, .error e) => (w2, .error e)
          | (w2, .ok _) => create_djvu_loop env dirname book (i + 1) rest w2 := rfl

theorem create_djvu_loop_trace (env : Env) (dirname book : String) :
    ∀ (pages : List String) (i : Nat) (w w' : World),
      create_djvu_loop env dirname book i pages w = (w', .ok ()) →
      w'.trace = w.trace ++ assemblerSpecTrace dirname book i pages := by
  intro pages
  induction pages with
  | nil =>
    intro i w w' h
    injection h with h1 _
    subst h1
    simp [assemblerSpecTrace]
  | cons p rest ih =>
    intro i w w' h
    rw [create_djvu_loop_cons] at h
    cases hok1 : env.cmdOk ["cjb2", "-clean", pathJoin dirname p, "tmp.djvu"] with
    | false =>
      rw [runCheck_err _ _ _ _ hok1] at h
      simp at h
    | true =>
      rw [runCheck_ok _ _ _ _ hok1] at h
      cases hi : (i == 1) with
      | true =>
        simp only [hi, if_pos] at h
        cases hok2 : env.cmdOk ["djvm", "-c", book, "tmp.djvu"] with
        | false =>
          rw [runCheck_err _ _ _ _ hok2] at h
          simp at h
        | true =>
          rw [runCheck_ok _ _ _ _ hok2] at h
          simp only [] at h
          have ht := ih (i + 1) _ w' h
          simp only [ht, assemblerSpecTrace, hi, if_pos]
          simp
      | false =>
        simp only [hi, Bool.false_eq_true, if_neg, if_false] at h
        cases hok2 : env.cmdOk ["djvm", "-i", book, "tmp.djvu"] with
        | false =>
          rw [runCheck_err _ _ _ _ hok2] at h
          simp at h
        | true =>
          rw [runCheck_ok _ _ _ _ hok2] at h
          simp only [] at h
          have ht := ih (i + 1) _ w' h
          simp only [ht, assemblerSpecTrace, hi, Bool.false_eq_true, if_neg, if_false]
          simp

/-- Claim C4 (amended): for a workspace holding at least one `.tif`
file, a successful `create_djvu` run invokes exactly the command
sequence `assemblerSpecTrace` on the lexicographically sorted `.tif`
listing — encoder per page, merger in create mode exactly once (on the
sorted-first page, index 1) and insert mode for every later page — the
processed pages being a sorted permutation of the qualifying files
regardless of listing order, and afterwards the shared temporary file
is deleted. -/
theorem c4_assembler_sorted_trace (env : Env) (dirname : String) (w w' : World)
    (hne : sortBy strLe ((env.listdir dirname).filter (fun x => strEndsWith x ".tif")) ≠ [])
    (hrun : create_djvu env dirname w = (w', .ok ())) :
    w'.trace = w.trace ++ assemblerSpecTrace dirname (pathJoin "output" (dirname ++ ".djvu")) 1
        (sortBy strLe ((env.listdir dirname).filter (fun x => strEndsWith x ".tif")))
    ∧ (sortBy strLe ((env.listdir dirname).filter (fun x => strEndsWith x ".tif"))).Pairwise
        (fun a b => strLe a b = true)
    ∧ (sortBy strLe ((env.listdir dirname).filter (fun x => strEndsWith x ".tif"))).Perm
        ((env.listdir dirname).filter (fun x => strEndsWith x ".tif"))
    ∧ ((assemblerSpecTrace dirname (pathJoin "output" (dirname ++ ".djvu")) 1
        (sortBy strLe ((env.listdir dirname).filter (fun x => strEndsWith x ".tif")))).filter
        isCreateCmd).length = 1
    ∧ lookupFile w'.files "tmp.djvu" = none := by
  simp only [create_djvu] at hrun
  rcases hloop : create_djvu_loop env dirname (pathJoin "output" (dirname ++ ".djvu")) 1
      (sortBy strLe ((env.listdir dirname).filter (fun x => strEndsWith x ".tif")))
      (create_directory "output" w) with ⟨wl, res⟩
  rw [hloop] at hrun
  cases res with
  | error e => simp at hrun
  | ok u =>
    cases htmp : (lookupFile wl.files "tmp.djvu").isSome with
    | false => simp [osRemove, htmp] at hrun
    | true =>
      simp only [osRemove, htmp, if_pos] at hrun
      injection hrun with hw _
      subst hw
      have htr := create_djvu_loop_trace env dirname (pathJoin "output" (dirname ++ ".djvu"))
        _ 1 _ _ hloop
      refine ⟨?_, sortBy_pairwise strLe strLe_trans strLe_total _, sortBy_perm strLe _,
        ?_, lookupFile_removeEntry_self _ _⟩
      · simpa [create_directory_trace] using htr
      · cases hp : sortBy strLe ((env.listdir dirname).filter (fun x => strEndsWith x ".tif")) with
        | nil => exact absurd hp hne
        | cons p ps => exact specTrace_create_once dirname _ p ps

/-- Claim C4 counterexample: a workspace with zero `.tif` files (and a
leftover temporary file, letting the final deletion succeed) gives a
successful `create_djvu` run with an empty command trace — the merger
is never invoked in create mode, not exactly once. -/
theorem c4_counterexample :
    create_djvu (⟨fun _ => .ok [], fun _ => .ok [], fun _ => [],
        fun _ => true, fun _ => [], fun _ => none⟩ : Env) "d"
        ⟨[], [("tmp.djvu", [0])], [], []⟩
      = (⟨["output"], [], [], []⟩, .ok ())
    ∧ (⟨["output"], [], [], []⟩ : World).trace = []
    ∧ (((⟨["output"], [], [], []⟩ : World).trace).filter isCreateCmd).length = 0 :=
  ⟨rfl, rfl, rfl⟩

theorem c4_witness :
    (⟨["output"], [("output/d.djvu", [1])],
        [["cjb2", "-clean", "d/a.tif", "tmp.djvu"],
         ["djvm", "-c", "output/d.djvu", "tmp.djvu"],
         ["cjb2", "-clean", "d/b.tif", "tmp.djvu"],
         ["djvm", "-i", "output/d.djvu", "tmp.djvu"]], []⟩ : World).trace
      = (⟨[], [], [], []⟩ : World).trace
        ++ assemblerSpecTrace "d" (pathJoin "output" ("d" ++ ".djvu")) 1
          (sortBy strLe ((((⟨fun _ => .ok [], fun _ => .ok [],
              fun _ => ["b.tif", "a.tif", "x.txt"], fun _ => true, fun _ => [1],
              fun _ => none⟩ : Env)).listdir "d").filter (fun x => strEndsWith x ".tif")))
    ∧ (sortBy strLe ((((⟨fun _ => .ok [], fun _ => .ok [],
          fun _ => ["b.tif", "a.tif", "x.txt"], fun _ => true, fun _ => [1],
          fun _ => none⟩ : Env)).listdir "d").filter (fun x => strEndsWith x ".tif"))).Pairwise
        (fun a b => strLe a b = true)
    ∧ (sortBy strLe ((((⟨fun _ => .ok [], fun _ => .ok [],
          fun _ => ["b.tif", "a.tif", "x.txt"], fun _ => true, fun _ => [1],
          fun _ => none⟩ : Env)).listdir "d").filter (fun x => strEndsWith x ".tif"))).Perm
        ((((⟨fun _ => .ok [], fun _ => .ok [],
          fun _ => ["b.tif", "a.tif", "x.txt"], fun _ => true, fun _ => [1],
          fun _ => none⟩ : Env)).listdir "d").filter (fun x => strEndsWith x ".tif"))
    ∧ ((assemblerSpecTrace "d" (pathJoin "output" ("d" ++ ".djvu")) 1
        (sortBy strLe ((((⟨fun _ => .ok [], fun _ => .ok [],
            fun _ => ["b.tif", "a.tif", "x.txt"], fun _ => true, fun _ => [1],
            fun _ => none⟩ : Env)).listdir "d").filter (fun x => strEndsWith x ".tif")))).filter
        isCreateCmd).length = 1
    ∧ lookupFile (⟨["output"], [("output/d.djvu", [1])],
        [["cjb2", "-clean", "d/a.tif", "tmp.djvu"],
         ["djvm", "-c", "output/d.djvu", "tmp.djvu"],
         ["cjb2", "-clean", "d/b.tif", "tmp.djvu"],
         ["djvm", "-i", "output/d.djvu", "tmp.djvu"]], []⟩ : World).files "tmp.djvu" = none := by
  exact c4_assembler_sorted_trace
    (⟨fun _ => .ok [], fun _ => .ok [], fun _ => ["b.tif", "a.tif", "x.txt"],
      fun _ => true, fun _ => [1], fun _ => none⟩ : Env) "d" ⟨[], [], [], []⟩
    ⟨["output"], [("output/d.djvu", [1])],
      [["cjb2", "-clean", "d/a.tif", "tmp.djvu"],
       ["djvm", "-c", "output/d.djvu", "tmp.djvu"],
       ["cjb2", "-clean", "d/b.tif", "tmp.djvu"],
       ["djvm", "-i", "output/d.djvu", "tmp.djvu"]], []⟩
    (by decide) rfl

theorem foldl_append_acc (a b : String) : ∀ l : List String,
    List.foldl (fun r s => r ++ s) (a ++ b) l = a ++ List.foldl (fun r s => r ++ s) b l
  | [] => rfl
  | c :: l => by
    simp only [List.foldl_cons]
    rw [String.append_assoc]
    exact foldl_append_acc a (b ++ c) l

theorem string_join_cons (s : String) (l : List String) :
    String.join (s :: l) = s ++ String.join l := by
  simp only [String.join, List.foldl_cons]
  have h0 : ("" : String) ++ s = s := rfl
  rw [h0]
  conv_lhs => rw [← String.append_empty s]
  exact foldl_append_acc s "" l

theorem readlinesAux_line : ∀ (pre rest acc : List Char),
    (∀ c ∈ pre, c ≠ '\n') →
    readlinesAux (pre ++ '\n' :: rest) acc
      = String.mk (acc.reverse ++ pre ++ ['\n']) :: readlinesAux rest []
  | [], rest, acc, _ => by simp [readlinesAux]
  | c :: pre, rest, acc, h => by
    have hc : c ≠ '\n' := h c (by simp)
    have hcb : (c == '\n') = false := by simp [hc]
    simp only [List.cons_append, readlinesAux, hcb, Bool.false_eq_true, if_neg, if_false]
    rw [show (pre.append ('\n' :: rest)) = pre ++ '\n' :: rest from rfl,
      readlinesAux_line pre rest (c :: acc) (fun x hx => h x (by simp [hx]))]
    simp

theorem pyReadlines_join : ∀ ls : List String,
    (∀ l ∈ ls, ∀ c ∈ l.data, c ≠ '\n') →
    pyReadlines (String.join (ls.map (fun l => l ++ "\n"))) = ls.map (fun l => l ++ "\n")
  | [], _ => rfl
  | l :: ls, h => by
    rw [List.map_cons, string_join_cons]
    unfold pyReadlines
    rw [String.data_append, String.data_append]
    rw [List.append_assoc, List.singleton_append]
    rw [readlinesAux_line l.data _ [] (h l (by simp))]
    have h2 := pyReadlines_join ls (fun x hx => h x (by simp [hx]))
    unfold pyReadlines at h2
    rw [h2]
    congr 1

theorem pyStrip_append_newline (l : String) : pyStrip (l ++ "\n") = pyStrip l := by
  unfold pyStrip
  rw [String.data_append]
  show String.mk ((((l.data ++ ['\n']).dropWhile isPySpace).reverse.dropWhile
      isPySpace).reverse) = _
  rw [List.dropWhile_append]
  by_cases he : (l.data.dropWhile isPySpace).isEmpty = true
  · simp only [he, if_pos]
    have h1 : List.dropWhile isPySpace ['\n'] = [] := rfl
    have hl : l.data.dropWhile isPySpace = [] := List.isEmpty_iff.mp he
    rw [h1, hl]
  · simp only [he, if_neg, if_false, Bool.false_eq_true]
    rw [List.reverse_append]
    simp only [List.reverse_cons, List.reverse_nil, List.nil_append, List.singleton_append]
    rw [List.dropWhile_cons]
    simp [isPySpace]

/-- Claim C5 counterexample: a file with a blank line yields an empty
string among the loader's entries, so "returns an ordered sequence of
non-empty strings" fails. -/
theorem c5_counterexample :
    file_to_list "a\n\nb\n" = ["a", "", "b"] ∧ "" ∈ file_to_list "a\n\nb\n" :=
  ⟨rfl, by decide⟩

/-- Claim C5 (amended): for every input file text, one entry per line,
in file order with no reordering, each entry the whitespace-stripped
line, duplicates preserved; an entry may be the empty string (blank
lines strip to empty entries). -/
theorem c5_loader_lines (ls : List String)
    (h : ∀ l ∈ ls, ∀ c ∈ l.data, c ≠ '\n') :
    file_to_list (String.join (ls.map (fun l => l ++ "\n"))) = ls.map pyStrip := by
  unfold file_to_list
  rw [pyReadlines_join ls h, List.map_map]
  exact List.map_congr_left (fun a _ => pyStrip_append_newline a)

theorem c5_witness :
    file_to_list (String.join (["a", " b ", "a"].map (fun l => l ++ "\n")))
      = ["a", " b ", "a"].map pyStrip := by
  exact c5_loader_lines ["a", " b ", "a"] (by decide)

theorem lookupFile_setFile_eq (fs : List (String × Bytes)) (p : String) (b : Bytes) :
    lookupFile (setFile fs p b) p = some b := by
  simp [setFile, lookupFile, List.find?_cons]

theorem lookupFile_removeEntry_ne (fs : List (String × Bytes)) (p q : String) (h : q ≠ p) :
    lookupFile (removeEntry fs q) p = lookupFile fs p := by
  induction fs with
  | nil => rfl
  | cons e fs ih =>
    by_cases hk : e.1 = q
    · have h1 : (e.1 != q) = false := by simp [hk]
      have h2 : (e.1 == p) = false := by simp [hk, h]
      simp only [removeEntry, List.filter_cons, h1, Bool.false_eq_true, if_neg, if_false]
      rw [show List.filter (fun e => e.1 != q) fs = removeEntry fs q from rfl, ih]
      simp [lookupFile, List.find?_cons, h2]
    · have h1 : (e.1 != q) = true := by simp [hk]
      simp only [removeEntry, List.filter_cons, h1, if_pos]
      by_cases hp : e.1 = p
      · simp [lookupFile, List.find?_cons, hp]
      · have h2 : (e.1 == p) = false := by simp [hp]
        simp only [lookupFile, List.find?_cons, h2, Bool.false_eq_true, if_neg, if_false]
        exact ih

theorem lookupFile_setFile_ne (fs : List (String × Bytes)) (p q : String) (b : Bytes)
    (h : q ≠ p) : lookupFile (setFile fs q b) p = lookupFile fs p := by
  have h2 : (q == p) = false := by simp [h]
  simp only [setFile, lookupFile, List.find?_cons, h2, Bool.false_eq_true, if_neg, if_false]
  exact lookupFile_removeEntry_ne fs p q h

theorem create_directory_dirs (d : String) (w : World) :
    (create_directory d w).dirs = (if pathExists w d then w.dirs else d :: w.dirs) := by
  unfold create_directory
  split <;> simp_all

theorem create_directory_errorLog (d : String) (w : World) :
    (create_directory d w).errorLog = w.errorLog := by
  unfold create_directory; split <;> rfl

theorem asStr_ok {j : Json} {s : String} (h : asStr j = .ok s) : j = .str s := by
  cases j with
  | str t => simp only [asStr] at h; injection h with h1; rw [h1]
  | arr xs => simp [asStr] at h
  | obj fs => simp [asStr] at h

theorem download_images_loop_frame (env : Env) (tdir : String) :
    ∀ (l : List PageRef) (w w' : World) (r : Except Exn Unit),
      download_images_loop env tdir l w = (w', r) →
      w'.dirs = w.dirs ∧ w'.trace = w.trace ∧ w'.errorLog = w.errorLog := by
  intro l
  induction l with
  | nil =>
    intro w w' r h
    injection h with h1 _
    subst h1
    exact ⟨rfl, rfl, rfl⟩
  | cons u rest ih =>
    intro w w' r h
    simp only [download_images_loop] at h
    cases hs : asStr u.filename with
    | error e =>
      rw [hs] at h
      injection h with h1 _
      subst h1
      exact ⟨rfl, rfl, rfl⟩
    | ok nm =>
      rw [hs] at h
      cases hg : env.httpGet u.url with
      | error e =>
        rw [hg] at h
        injection h with h1 _
        subst h1
        exact ⟨rfl, rfl, rfl⟩
      | ok body =>
        rw [hg] at h
        dsimp only at h
        exact ih ⟨w.dirs, setFile w.files (pathJoin tdir nm) body, w.trace, w.errorLog⟩ w' r h

theorem download_images_loop_preserve (env : Env) (tdir p : String) :
    ∀ (l : List PageRef) (w w' : World),
      download_images_loop env tdir l w = (w', .ok ()) →
      (∀ pr ∈ l, ∀ nm, pr.filename = .str nm → pathJoin tdir nm ≠ p) →
      lookupFile w'.files p = lookupFile w.files p := by
  intro l
  induction l with
  | nil =>
    intro w w' h _
    injection h with h1 _
    subst h1
    rfl
  | cons u rest ih =>
    intro w w' h hnone
    simp only [download_images_loop] at h
    cases hs : asStr u.filename with
    | error e => rw [hs] at h; simp at h
    | ok nm =>
      rw [hs] at h
      cases hg : env.httpGet u.url with
      | error e => rw [hg] at h; simp at h
      | ok body =>
        rw [hg] at h
        dsimp only at h
        have hnm : u.filename = .str nm := asStr_ok hs
        have hne : pathJoin tdir nm ≠ p := hnone u (by simp) nm hnm
        rw [ih _ _ h (fun pr hpr => hnone pr (by simp [hpr]))]
        exact lookupFile_setFile_ne w.files p (pathJoin tdir nm) body hne

theorem download_images_loop_writes (env : Env) (tdir nm : String) (body : Bytes)
    (ref : PageRef) (hnm : ref.filename = .str nm) (hget : env.httpGet ref.url = .ok body) :
    ∀ (pre : List PageRef) (post : List PageRef) (w w' : World),
      download_images_loop env tdir (pre ++ ref :: post) w = (w', .ok ()) →
      (∀ pr ∈ post, ∀ nm2, pr.filename = .str nm2 →
        pathJoin tdir nm2 ≠ pathJoin tdir nm) →
      lookupFile w'.files (pathJoin tdir nm) = some body := by
  intro pre
  induction pre with
  | nil =>
    intro post w w' h hpost
    simp only [List.nil_append, download_images_loop, hnm, asStr, hget] at h
    rw [download_images_loop_preserve env tdir (pathJoin tdir nm) post _ w' h hpost]
    exact lookupFile_setFile_eq w.files (pathJoin tdir nm) body
  | cons q pre' ih =>
    intro post w w' h hpost
    simp only [List.cons_append, download_images_loop] at h
    cases hs : asStr q.filename with
    | error e => rw [hs] at h; simp at h
    | ok nmq =>
      rw [hs] at h
      cases hg : env.httpGet q.url with
      | error e => rw [hg] at h; simp at h
      | ok bq =>
        rw [hg] at h
        dsimp only at h
        exact ih post _ _ h hpost

theorem pathJoin_rel (a b : String) (hrel : strStartsWith b "/" = false)
    (ha1 : a ≠ "") (ha2 : strEndsWith a "/" = false) :
    pathJoin a b = a ++ "/" ++ b := by
  have h0 : (a == "") = false := by simp [ha1]
  simp [pathJoin, hrel, h0, ha2]

/-- Claim C6 (amended): for a reference whose filename is a plain
relative string and that is the last in the list resolving to its
target path, a successful `download_images` leaves the file at
`<workspace>/<filename>` with content exactly the HTTP response body of
the reference's URL; the workspace directory is created when absent and
left as-is when present, and nothing else of the world changes. An
absolute filename is instead written at its own absolute path, and a
later duplicate filename overwrites an earlier one (see the
counterexample). -/
theorem c6_download_writes_body (env : Env) (internal_id : String)
    (pre post : List PageRef) (ref : PageRef) (nm : String) (body : Bytes) (w w' : World)
    (hrun : download_images env (pre ++ ref :: post) internal_id w = (w', .ok ()))
    (hnm : ref.filename = .str nm)
    (hrel : strStartsWith nm "/" = false)
    (hid1 : internal_id ≠ "")
    (hid2 : strEndsWith internal_id "/" = false)
    (hget : env.httpGet ref.url = .ok body)
    (hlater : ∀ pr ∈ post, ∀ nm2, pr.filename = .str nm2 →
        pathJoin internal_id nm2 ≠ pathJoin internal_id nm) :
    lookupFile w'.files (internal_id ++ "/" ++ nm) = some body
    ∧ w'.dirs = (if pathExists w internal_id then w.dirs else internal_id :: w.dirs)
    ∧ w'.trace = w.trace
    ∧ w'.errorLog = w.errorLog := by
  have hpj := pathJoin_rel internal_id nm hrel hid1 hid2
  unfold download_images at hrun
  obtain ⟨hd, ht, he⟩ := download_images_loop_frame env internal_id _ _ _ _ hrun
  refine ⟨?_, ?_, ?_, ?_⟩
  · rw [← hpj]
    exact download_images_loop_writes env internal_id nm body ref hnm hget pre post _ w'
      hrun hlater
  · rw [hd, create_directory_dirs]
  · rw [ht, create_directory_trace]
  · rw [he, create_directory_errorLog]

/-- Claim C6 counterexample: a reference whose filename is the absolute
path `/abs.tif` is written at `/abs.tif` itself, not at
`<workspace>/<filename>` (neither reading of that path holds a file);
and of two references sharing a filename the later one's body is what
the file finally holds, so the earlier reference's file is not
byte-identical to its own response body. -/
theorem c6_counterexample :
    download_images (⟨fun _ => .ok [], fun _ => .ok [1], fun _ => [], fun _ => true,
        fun _ => [], fun _ => none⟩ : Env) [⟨.str "/abs.tif", "u"⟩] "id" ⟨[], [], [], []⟩
      = (⟨["id"], [("/abs.tif", [1])], [], []⟩, .ok ())
    ∧ lookupFile [("/abs.tif", ([1] : Bytes))] "id//abs.tif" = none
    ∧ lookupFile [("/abs.tif", ([1] : Bytes))] "id/abs.tif" = none
    ∧ lookupFile [("/abs.tif", ([1] : Bytes))] "/abs.tif" = some [1]
    ∧ download_images (⟨fun _ => .ok [], fun u => if u == "u1" then .ok [1] else .ok [2],
        fun _ => [], fun _ => true, fun _ => [], fun _ => none⟩ : Env)
        [⟨.str "p.tif", "u1"⟩, ⟨.str "p.tif", "u2"⟩] "id" ⟨[], [], [], []⟩
      = (⟨["id"], [("id/p.tif", [2])], [], []⟩, .ok ())
    ∧ ¬ (some ([2] : Bytes) = some ([1] : Bytes)) :=
  ⟨rfl, rfl, rfl, rfl, rfl, by decide⟩

theorem c6_witness :
    lookupFile (⟨["art"], [("art/p.tif", [7])], [], []⟩ : World).files
        ("art" ++ "/" ++ "p.tif") = some [7]
    ∧ (⟨["art"], [("art/p.tif", [7])], [], []⟩ : World).dirs
        = (if pathExists ⟨[], [], [], []⟩ "art" then ([] : List String) else ["art"])
    ∧ (⟨["art"], [("art/p.tif", [7])], [], []⟩ : World).trace
        = (⟨[], [], [], []⟩ : World).trace
    ∧ (⟨["art"], [("art/p.tif", [7])], [], []⟩ : World).errorLog
        = (⟨[], [], [], []⟩ : World).errorLog := by
  exact c6_download_writes_body (⟨fun _ => .ok [], fun _ => .ok [7], fun _ => [],
      fun _ => true, fun _ => [], fun _ => none⟩ : Env) "art" [] []
    ⟨.str "p.tif", "u"⟩ "p.tif" [7] ⟨[], [], [], []⟩ ⟨["art"], [("art/p.tif", [7])], [], []⟩
    rfl rfl rfl (by decide) rfl rfl (by simp)

theorem file_url_ne_empty (a b c : String) : file_url a b c ≠ "" := by
  intro h
  have h2 := congrArg String.data h
  simp only [file_url, String.data_append] at h2
  simp at h2

theorem extractPath_url (fil : Json) (r : PageRef) (h : extractPath fil = .ok r) :
    ∃ a b c, r.url = file_url a b c := by
  unfold extractPath at h
  repeat' split at h
  all_goals first
    | exact Except.noConfusion h
    | {injection h with h1
       exact ⟨_, _, _, (congrArg PageRef.url h1).symm⟩}

/-- Claim C7 (amended): every Page Reference a successful extraction
returns has a non-empty URL (it instantiates the fixed `binaryDownload`
template); the filename is copied verbatim from the first `image/tiff`
entry's `originalFileName` field and may be the empty string (see the
counterexample). -/
theorem c7_refs_have_nonempty_url (article_data : List Json) (refs : List PageRef)
    (h : get_image_paths article_data = .ok refs) :
    ∀ r ∈ refs, r.url ≠ "" := by
  intro r hr
  unfold get_image_paths at h
  split at h
  · exact Except.noConfusion h
  · split at h
    · exact Except.noConfusion h
    · obtain ⟨fil, _, hok⟩ := mapExcept_mem_ok _ _ h r hr
      obtain ⟨a, b, c, hurl⟩ := extractPath_url fil r hok
      rw [hurl]
      exact file_url_ne_empty a b c

/-- Claim C7 counterexample: a record whose first `image/tiff` entry
carries an empty `originalFileName` extracts successfully into a Page
Reference whose filename is the empty string, refuting the non-empty
filename invariant. -/
theorem c7_counterexample :
    get_image_paths [Json.obj [("entityType", Json.str "Resource"),
        ("properties", Json.obj [("resource.originalFile", Json.arr [Json.obj [("value",
          Json.obj [("mimeType", Json.str "image/tiff"), ("reference", Json.str "r"),
            ("profile", Json.str "p"), ("originalFileName", Json.str "")])]])])]]
      = .ok [⟨Json.str "", file_url "r" "p" "image/tiff"⟩]
    ∧ pyStr (Json.str "") = ""
    ∧ asStr (Json.str "") = .ok "" := ⟨rfl, rfl, rfl⟩

theorem c7_witness :
    (⟨Json.str "n.tif", file_url "r" "p" "image/tiff"⟩ : PageRef).url ≠ "" := by
  exact c7_refs_have_nonempty_url
    [Json.obj [("entityType", Json.str "Resource"),
      ("properties", Json.obj [("resource.originalFile", Json.arr [Json.obj [("value",
        Json.obj [("mimeType", Json.str "image/tiff"), ("reference", Json.str "r"),
          ("profile", Json.str "p"), ("originalFileName", Json.str "n.tif")])]])])]]
    [⟨Json.str "n.tif", file_url "r" "p" "image/tiff"⟩] rfl
    ⟨Json.str "n.tif", file_url "r" "p" "image/tiff"⟩ (by simp)
